import Mathlib

/-
Verification of the step-definition engine of ifc-gherkin-rules
(features/steps/steps.py) against its natural-language specification.

The Python source is shallowly embedded below.  Pure helper functions become
Lean functions; Python exceptions (IndexError, NameError, AssertionError,
NotImplementedError, TypeError, AttributeError) become an explicit `PyErr`
error value threaded through `Except`.  External capabilities of the model
layer (`by_type`, the transitive `traverse` closure, attribute access on
entity instances, the relating/related accessor CSV tables) are modelled as
explicitly supplied data, following the external-interface section of the
spec: the closure of an IfcConnectedFaceSet is given directly as the lists
of poly loops and oriented edges that `filter(is_a(...), file.traverse(inst))`
would return, and an attribute that is absent or unset on an instance reads
as the Python value None.
-/

/-- Python exception values raised by the embedded code. -/
inductive PyErr where
  | indexError : PyErr
  | assertionError : PyErr
  | nameError : String → PyErr
  | typeError : String → PyErr
  | attributeError : String → PyErr
  | notImplemented : String → PyErr
deriving DecidableEq

/-- A vertex: the Coordinates triple of an IfcCartesianPoint.  Coordinates are
only ever compared for equality by the decoder, never computed with, so they
are carried as an opaque list of integers. -/
abbrev Coord := List Int

/-- A computable lexicographic order on coordinate lists, used only to store
an unordered pair in a canonical orientation. -/
def coordLe : Coord → Coord → Bool
  | [], _ => true
  | _ :: _, [] => false
  | a :: as, b :: bs => if a < b then true else if b < a then false else coordLe as bs

/-- A decoded edge: `edge_type` in get_edges is `tuple` when `oriented` and
`frozenset` otherwise, so an edge is either an ordered pair or a two-element
frozenset.  The frozenset of the two endpoints is represented canonically by
the pair ordered under `coordLe`, so two frozenset edges are equal exactly
when their endpoint sets are equal (a degenerate edge with equal endpoints,
the one-element frozenset, is the canonical pair with both components
equal). -/
inductive PyEdge where
  | fset : Coord → Coord → PyEdge
  | pair : Coord → Coord → PyEdge
deriving DecidableEq

/-- frozenset of two coordinates, in canonical orientation. -/
def mk_fset (a b : Coord) : PyEdge :=
  if coordLe a b then PyEdge.fset a b else PyEdge.fset b a

/-- edge_type applied to a two-element sequence of coordinates. -/
def edge_of_pair (oriented : Bool) (a b : Coord) : PyEdge :=
  if oriented then PyEdge.pair a b else mk_fset a b

/-- An IfcPolyLoop from the closure of the face set: the Coordinates of the
points of lp.Polygon. -/
structure PolyLoopV where
  polygon : List Coord
deriving DecidableEq

/-- An IfcOrientedEdge from the closure of the face set:
ed.EdgeElement.EdgeStart.VertexGeometry.Coordinates,
ed.EdgeElement.EdgeEnd.VertexGeometry.Coordinates, and ed.Orientation. -/
structure OrientedEdgeV where
  edgeStart : Coord
  edgeEnd : Coord
  orientation : Bool
deriving DecidableEq

/-- A face of an IfcPolygonalFaceSet: CoordIndex holds the 1-based outer-loop
indices; InnerCoordIndices is present exactly when the face
is_a IfcIndexedPolygonalFaceWithVoids. -/
structure IndexedFace where
  coordIndex : List Int
  innerCoordIndices : Option (List (List Int))
deriving DecidableEq

/-- The mesh-encoding variants dispatched on by get_edges via inst.is_a,
with the data each branch reads.  `otherEncoding` keeps the type name that
inst.is_a() would report for the error message. -/
inductive MeshInstance where
  | connectedFaceSet (loops : List PolyLoopV) (edges : List OrientedEdgeV)
  | triangulatedFaceSet (coordList : List Coord) (coordIndex : List (Int × Int × Int))
  | polygonalFaceSet (coordList : List Coord) (faces : List IndexedFace)
  | otherEncoding (typeName : String)
deriving DecidableEq

/-- Python list indexing `xs[i]` with negative-index wrap-around; raises
IndexError when out of range. -/
def py_get (xs : List Coord) (i : Int) : Except PyErr Coord :=
  let j : Int := if i < 0 then (xs.length : Int) + i else i
  if h : 0 ≤ j ∧ j.toNat < xs.length then Except.ok (xs.get ⟨j.toNat, h.2⟩)
  else Except.error PyErr.indexError

/-- `coords[i - 1]`: resolution of a 1-based index into the flat
coordinate list. -/
def resolve_index (coords : List Coord) (i : Int) : Except PyErr Coord :=
  py_get coords (i - 1)

/-- Edges of one IfcPolyLoop: `shifted = coords[1:] + [coords[0]]` followed by
`map(edge_type, zip(coords, shifted))`; `coords[0]` raises IndexError on an
empty loop. -/
def loop_edges (oriented : Bool) (coords : List Coord) : Except PyErr (List PyEdge) :=
  match coords with
  | [] => Except.error PyErr.indexError
  | c :: rest => Except.ok (List.zipWith (edge_of_pair oriented) (c :: rest) (rest ++ [c]))

/-- Edges of all IfcPolyLoop instances in the closure, in traversal order. -/
def loops_edges (oriented : Bool) : List PolyLoopV → Except PyErr (List PyEdge)
  | [] => Except.ok []
  | lp :: rest => do
      let es ← loop_edges oriented lp.polygon
      let rest2 ← loops_edges oriented rest
      Except.ok (es ++ rest2)

/-- One IfcOrientedEdge contributes one edge: the (start, end) coordinate
pair, reversed when ed.Orientation is false. -/
def oriented_edge_decode (oriented : Bool) (ed : OrientedEdgeV) : PyEdge :=
  if ed.orientation then edge_of_pair oriented ed.edgeStart ed.edgeEnd
  else edge_of_pair oriented ed.edgeEnd ed.edgeStart

/-- The three edges of one triangle of an IfcTriangulatedFaceSet: index pairs
(0,1), (1,2), (2,0) of the triple, each resolved through the coordinate
list. -/
def triangle_edges (oriented : Bool) (coords : List Coord) (idx : Int × Int × Int) :
    Except PyErr (List PyEdge) := do
  let a ← resolve_index coords idx.1
  let b ← resolve_index coords idx.2.1
  let c ← resolve_index coords idx.2.2
  Except.ok [edge_of_pair oriented a b, edge_of_pair oriented b c, edge_of_pair oriented c a]

/-- Edges of all triangles of an IfcTriangulatedFaceSet. -/
def triangles_edges (oriented : Bool) (coords : List Coord) :
    List (Int × Int × Int) → Except PyErr (List PyEdge)
  | [] => Except.ok []
  | idx :: rest => do
      let es ← triangle_edges oriented coords idx
      let rest2 ← triangles_edges oriented coords rest
      Except.ok (es ++ rest2)

/-- Resolution of every 1-based index of one polygonal-face loop
(`fcoords = list(map(lambda i: coords[i - 1], loop))`). -/
def resolve_loop (coords : List Coord) : List Int → Except PyErr (List Coord)
  | [] => Except.ok []
  | i :: rest => do
      let c ← resolve_index coords i
      let rest2 ← resolve_loop coords rest
      Except.ok (c :: rest2)

/-- `emit(loop)` inside the IfcPolygonalFaceSet branch: resolve the loop's
indices, then pair each resolved point with its successor, wrapping the last
point around to the first (`fcoords[0]` raises IndexError on an empty
loop). -/
def emit_loop (oriented : Bool) (coords : List Coord) (loop : List Int) :
    Except PyErr (List PyEdge) := do
  let fcoords ← resolve_loop coords loop
  match fcoords with
  | [] => Except.error PyErr.indexError
  | c :: rest => Except.ok (List.zipWith (edge_of_pair oriented) (c :: rest) (rest ++ [c]))

/-- `emit` applied to a list of loops, concatenating the edges. -/
def emit_loops (oriented : Bool) (coords : List Coord) :
    List (List Int) → Except PyErr (List PyEdge)
  | [] => Except.ok []
  | l :: rest => do
      let es ← emit_loop oriented coords l
      let rest2 ← emit_loops oriented coords rest
      Except.ok (es ++ rest2)

/-- Edges of one face of an IfcPolygonalFaceSet: the outer loop's edges, then,
when the face is_a IfcIndexedPolygonalFaceWithVoids, the edges of each inner
loop. -/
def face_edges (oriented : Bool) (coords : List Coord) (f : IndexedFace) :
    Except PyErr (List PyEdge) := do
  let outer ← emit_loop oriented coords f.coordIndex
  match f.innerCoordIndices with
  | none => Except.ok outer
  | some inners => do
      let innerEs ← emit_loops oriented coords inners
      Except.ok (outer ++ innerEs)

/-- Edges of all faces of an IfcPolygonalFaceSet. -/
def faces_edges (oriented : Bool) (coords : List Coord) :
    List IndexedFace → Except PyErr (List PyEdge)
  | [] => Except.ok []
  | f :: rest => do
      let es ← face_edges oriented coords f
      let rest2 ← faces_edges oriented coords rest
      Except.ok (es ++ rest2)

/-- get_edges(file, inst, ..., oriented): the sequence of edges produced by
the generator, before the caller-chosen sequence_type (frozenset or Counter)
is applied; an unrecognized encoding raises NotImplementedError. -/
def get_edges_list (oriented : Bool) : MeshInstance → Except PyErr (List PyEdge)
  | MeshInstance.connectedFaceSet loops eds => do
      let les ← loops_edges oriented loops
      Except.ok (les ++ eds.map (oriented_edge_decode oriented))
  | MeshInstance.triangulatedFaceSet coords idxs => triangles_edges oriented coords idxs
  | MeshInstance.polygonalFaceSet coords faces => faces_edges oriented coords faces
  | MeshInstance.otherEncoding name =>
      Except.error (PyErr.notImplemented ("get_edges(" ++ name ++ ")"))

/-- The edge_use_error dataclass: owning instance, offending edge, actual
reference count. -/
structure edge_use_error where
  inst : MeshInstance
  edge : PyEdge
  count : Nat
deriving DecidableEq

/-- One iteration of the generator in the edge-usage then-step: build the
Counter over the instance's decoded edges and emit one edge_use_error for
each distinct edge whose count differs from the expected count. -/
def inst_findings (oriented : Bool) (num : Nat) (inst : MeshInstance) :
    Except PyErr (List edge_use_error) := do
  let edges ← get_edges_list oriented inst
  Except.ok ((edges.dedup.filter (fun e => edges.count e != num)).map
    (fun e => edge_use_error.mk inst e (edges.count e)))

/-- The full generator of the edge-usage then-step over context.instances. -/
def check_instances (oriented : Bool) (num : Nat) :
    List MeshInstance → Except PyErr (List edge_use_error)
  | [] => Except.ok []
  | i :: rest => do
      let fs ← inst_findings oriented num i
      let rest2 ← check_instances oriented num rest
      Except.ok (fs ++ rest2)

/-- The then-step `Every {something} shall be referenced exactly {num:d} times
by the loops of the face`: asserts the `something` phrase, selects oriented
mode when it reads `oriented edge`, and collects the findings. -/
def edge_usage_step (something : String) (num : Nat) (instances : List MeshInstance) :
    Except PyErr (List edge_use_error) :=
  if something = "edge" ∨ something = "oriented edge" then
    check_instances (something == "oriented edge") num instances
  else Except.error PyErr.assertionError

/-- An attribute value on an entity instance, as seen through the external
model layer.  ast.literal_eval in the attribute-filter step can only produce
literal values (modelled by noneV, intV, strV); an attribute may also hold
another entity instance (entityV, identified by its stable id, which is what
Python equality on ifcopenshell instances compares).  An attribute that is
absent or unset reads as None (noneV). -/
inductive Value where
  | noneV : Value
  | intV : Int → Value
  | strV : String → Value
  | entityV : Nat → Value
deriving DecidableEq

/-- A generic entity instance for the attribute-filtering steps: a stable id
plus the named attributes that are set on it. -/
structure AInst where
  id : Nat
  attrs : List (String × Value)
deriving DecidableEq

/-- getattr(inst, name) through the external model layer: absent or unset
attributes read as None. -/
def getAttr (inst : AInst) (name : String) : Value :=
  (inst.attrs.lookup name).getD Value.noneV

/-- The given-step `{attribute} = {value}`: keeps the instances whose
attribute equals the literal parsed by ast.literal_eval. -/
def attribute_filter_step (instances : List AInst) (attrName : String) (value : Value) :
    List AInst :=
  instances.filter (fun inst => getAttr inst attrName == value)

/-- The external model as used by the generic steps: by_type may raise (an
unknown entity type name raises in ifcopenshell). -/
structure GModel where
  byType : String → Except PyErr (List AInst)

/-- The given-step `An {entity}`: context.instances becomes the by_type
result, or the empty list when by_type raises (the bare except). -/
def an_entity_step (m : GModel) (entity : String) : List AInst :=
  match m.byType entity with
  | Except.ok l => l
  | Except.error _ => []

/-- A relating or related object reached by the relationship-traversal step:
only its identity and its is_a classes (the type and its supertypes) are
read. -/
structure RObj where
  id : Nat
  classes : List String
deriving DecidableEq

/-- is_a with supertype matching. -/
def robj_is_a (o : RObj) (s : String) : Bool := o.classes.contains s

/-- The Python value held by a relating/related attribute of a relationship
instance: a single entity instance, a collection of them, or None. -/
inductive RAttrVal where
  | noneV : RAttrVal
  | single : RObj → RAttrVal
  | collection : List RObj → RAttrVal
deriving DecidableEq

/-- A relationship instance: the entity type name that the regex
`([0-9]+=)([A-Za-z0-9]+)\x28` extracts from str(rel), and its attributes. -/
structure RelInst where
  typeName : String
  attrs : List (String × RAttrVal)
deriving DecidableEq

/-- The model as seen by the relationship step (by_type is called without a
try handler there). -/
structure RelModel where
  byType : String → Except PyErr (List RelInst)

/-- The two accessor CSV tables (resources/relating_entity_attributes.csv and
resources/related_entity_attributes.csv): one DictReader row each, mapping a
relationship type name to the accessor name of its relating/related side. -/
structure AccessorTables where
  relating : String → Option String
  related : String → Option String

/-- Python local-name resolution inside the loop body: a name that is not
bound among the locals (and has no module-level binding) raises NameError. -/
def load_local (env : List (String × Option String)) (n : String) :
    Except PyErr (Option String) :=
  match env.lookup n with
  | some v => Except.ok v
  | none => Except.error (PyErr.nameError n)

/-- getattr(rel, name) where name was produced by a dict .get (so may be
None): getattr with a None name raises TypeError, a name not set on the
instance raises AttributeError. -/
def py_getattr_rel (rel : RelInst) (name : Option String) : Except PyErr RAttrVal :=
  match name with
  | none => Except.error (PyErr.typeError "attribute name must be string")
  | some n =>
      match rel.attrs.lookup n with
      | some v => Except.ok v
      | none => Except.error (PyErr.attributeError n)

/-- `.is_a(other_entity)` on the value of the relating attribute: only an
entity instance has is_a; a tuple or None raises AttributeError. -/
def rattr_is_a (v : RAttrVal) (s : String) : Except PyErr Bool :=
  match v with
  | RAttrVal.single o => Except.ok (robj_is_a o s)
  | _ => Except.error (PyErr.attributeError "is_a")

/-- The try/except around iter(...): a collection is used as is; on a single
instance iter raises TypeError, which is caught, but the fallback
`tuple(getattr(rel, ...))` applies tuple() to the same non-iterable value and
raises TypeError again, uncaught (the working fallback would have been a
one-element tuple literal). -/
def rel_iterate (v : RAttrVal) : Except PyErr (List RObj) :=
  match v with
  | RAttrVal.collection os => Except.ok os
  | RAttrVal.single _ => Except.error (PyErr.typeError "tuple argument not iterable")
  | RAttrVal.noneV => Except.error (PyErr.typeError "NoneType not iterable")

/-- One iteration of the loop over the relationship instances.  The CSV
lookups are bound to the locals attr_to_entity and attr_to_other, but the
code then reads the names relationship_relating_attr and
relationship_related_attr, which are bound nowhere in the function or the
module, so the first name read raises NameError. -/
def rel_loop_body (tables : AccessorTables) (entity other_entity : String)
    (rel : RelInst) : Except PyErr (List RObj) := do
  let attr_to_entity := tables.relating rel.typeName
  let attr_to_other := tables.related rel.typeName
  let env := [("attr_to_entity", attr_to_entity), ("attr_to_other", attr_to_other)]
  let relating_name ← load_local env "relationship_relating_attr"
  let relatingVal ← py_getattr_rel rel relating_name
  let matches_ ← rattr_is_a relatingVal other_entity
  if matches_ then do
    let related_name ← load_local env "relationship_related_attr"
    let relatedVal ← py_getattr_rel rel related_name
    let objs ← rel_iterate relatedVal
    Except.ok (objs.filter (fun o => robj_is_a o entity))
  else Except.ok []

/-- The loop over the relationship instances, accumulating `instances`. -/
def rel_loop (tables : AccessorTables) (entity other_entity : String) :
    List RelInst → List RObj → Except PyErr (List RObj)
  | [], acc => Except.ok acc
  | rel :: rest, acc => do
      let objs ← rel_loop_body tables entity other_entity rel
      rel_loop tables entity other_entity rest (acc ++ objs)

/-- The given-step `A relationship {relationship} {dir1} {entity} {dir2}
{other_entity} {tail}`: asserts dir1 != dir2, fetches the relationship
instances, and runs the collection loop.  The tail parameter (the enum for
the optional `and following that` phrase) is accepted but never read by the
body. -/
def relationship_step (tables : AccessorTables) (m : RelModel)
    (relationship entity other_entity : String) (dir1 dir2 tail : Nat) :
    Except PyErr (List RObj) :=
  if dir1 = dir2 then Except.error PyErr.assertionError
  else do
    let relationships ← m.byType relationship
    rel_loop tables entity other_entity relationships []

/-- Python str.strip applied with the double-quote character: removes every
leading and trailing double quote. -/
def py_strip_quotes (s : String) : String :=
  String.mk (((s.data.dropWhile (fun c => c = '"')).reverse.dropWhile
    (fun c => c = '"')).reverse)

/-- `values.split(' or ')` then strip('"') then str.lower on each part, as in
the file-applicability given-step. -/
def parse_values (values : String) : List String :=
  (values.splitOn " or ").map (fun s => (py_strip_quotes s).toLower)

/-- Python `s.split(" ", 1)`: split at the first space only. -/
def py_split_space_once (s : String) : List String :=
  let a := s.data.takeWhile (fun c => c ≠ ' ')
  match s.data.dropWhile (fun c => c ≠ ' ') with
  | [] => [String.mk a]
  | _ :: rest => [String.mk a, String.mk rest]

/-- Python `s[1:-1]`: drop the first and the last character. -/
def py_slice_inner (s : String) : String :=
  String.mk ((s.data.drop 1).dropLast)

/-- get_mvd: reads the first header description string, keeps what follows
the first space, and strips the surrounding brackets; any failure (missing
description entry or no space) is swallowed by the bare except and yields
None. -/
def get_mvd (descriptions : List String) : Option String :=
  match descriptions with
  | [] => none
  | d :: _ =>
      match py_split_space_once d with
      | [_, rest] => some (py_slice_inner rest)
      | _ => none

/-- The file-applicability check of the given-step `A file with {field}
"{values}"`: the boolean `applicable` computed for this one check, before it
is conjoined with the context flag.  An unknown field raises
NotImplementedError. -/
def file_check (descriptions : List String) (schema field values : String) :
    Except PyErr Bool :=
  let vals := parse_values values
  if field = "Model View Definition" then
    Except.ok (match get_mvd descriptions with
      | some m => vals.contains m.toLower
      | none => false)
  else if field = "Schema Identifier" then
    Except.ok (vals.contains schema.toLower)
  else Except.error (PyErr.notImplemented ("A file with " ++ field ++ " is not implemented"))

/-- The whole given-step: `context.applicable = getattr(context, 'applicable',
True) and applicable`.  The context flag is an Option because the attribute
may not exist yet (getattr default True). -/
def file_with_step (ctx : Option Bool) (descriptions : List String)
    (schema field values : String) : Except PyErr Bool := do
  let applicable ← file_check descriptions schema field values
  Except.ok (ctx.getD true && applicable)

/-- The arguments of one file-applicability check. -/
structure FileCheck where
  descriptions : List String
  schema : String
  field : String
  values : String

/-- A sequence of file-applicability given-steps threading context.applicable
from one to the next. -/
def run_checks (ctx : Option Bool) : List FileCheck → Except PyErr (Option Bool)
  | [] => Except.ok ctx
  | c :: cs => do
      let r ← file_with_step ctx c.descriptions c.schema c.field c.values
      run_checks (some r) cs

/-- The instance_count_error dataclass. -/
structure instance_count_error where
  insts : List AInst
  type_name : String
deriving DecidableEq

/-- The then-step `There shall be {constraint} {num:d} instance(s) of
{entity}`: asserts the constraint phrase, and only when context.applicable
(default True) holds does it count the instances and report a violation. -/
def instance_count_step (applicable : Option Bool) (m : GModel)
    (constraint : String) (num : Int) (entity : String) :
    Except PyErr (List instance_count_error) := do
  let isAtLeast ←
    match constraint with
    | "at least" => Except.ok true
    | "at most" => Except.ok false
    | _ => Except.error PyErr.assertionError
  if applicable.getD true then do
    let insts ← m.byType entity
    if (if isAtLeast then num ≤ (insts.length : Int) else (insts.length : Int) ≤ num) then
      Except.ok []
    else Except.ok [instance_count_error.mk insts entity]
  else Except.ok []

/-- The RelatingObject of one IfcRelDecomposes relationship found in an
instance's Decomposes inverse: the structural step reads only this object
(its is_a classes and identity). -/
structure ObjRef where
  id : Nat
  classes : List String
deriving DecidableEq

/-- An instance as read by the structural-assignment then-step: its is_a
classes and the RelatingObject of each relationship in
getattr(inst, 'Decomposes', []). -/
structure SInst where
  id : Nat
  classes : List String
  decomposes : List ObjRef
deriving DecidableEq

/-- The model as seen by the structural-assignment then-step. -/
structure SModel where
  byType : String → Except PyErr (List SInst)

/-- The instance_structure_error dataclass. -/
structure instance_structure_error where
  related : SInst
  relating : ObjRef
deriving DecidableEq

/-- The then-step `The {related} shall be assigned to the {relating} if
{other_entity} {condition} present`: asserts the condition phrase; when
applicable, and when the presence predicate on the count of {other_entity}
holds, reports every Decomposes relationship whose RelatingObject is not a
{relating}. -/
def structural_step (applicable : Option Bool) (m : SModel)
    (related relating other_entity condition : String) :
    Except PyErr (List instance_structure_error) := do
  let predIsEq ←
    match condition with
    | "is" => Except.ok true
    | "is not" => Except.ok false
    | _ => Except.error PyErr.assertionError
  if applicable.getD true then do
    let others ← m.byType other_entity
    if (if predIsEq then others.length ≠ 0 else others.length = 0) then do
      let insts ← m.byType related
      Except.ok ((insts.map (fun inst =>
        (inst.decomposes.filter (fun ro => !(ro.classes.contains relating))).map
          (fun ro => instance_structure_error.mk inst ro))).flatten)
    else Except.ok []
  else Except.ok []

/-- An object placement instance: its is_a classes, and its PlacementRelTo
attribute when that attribute exists on its entity type (the value being the
id of the referenced placement, or None).  Reading PlacementRelTo on a
placement without it raises AttributeError. -/
structure PObj where
  id : Nat
  classes : List String
  hasPlacementRelTo : Bool
  placementRelTo : Option Nat
deriving DecidableEq

/-- The RelatingObject of an aggregation relationship, as read by the
container-placement then-step. -/
structure PContainer where
  id : Nat
  classes : List String
  objectPlacement : Option PObj
deriving DecidableEq

/-- An instance as read by the placement then-steps: its ObjectPlacement and
the RelatingObject of each relationship in its Decomposes inverse. -/
structure PInst where
  id : Nat
  classes : List String
  objectPlacement : Option PObj
  decomposes : List PContainer
deriving DecidableEq

/-- A duck-typed field of the instance_placement_error dataclass: the source
stores an empty string, an entity instance, a placement (or None), or the
string fallback, depending on the call site. -/
inductive PEField where
  | strF : String → PEField
  | containerF : PContainer → PEField
  | placementF : Option PObj → PEField
  | relF : Option Nat → PEField
deriving DecidableEq

/-- The instance_placement_error dataclass. -/
structure instance_placement_error where
  entity : PInst
  placement : String
  container : PEField
  relationship : String
  container_obj_placement : PEField
  entity_obj_placement_rel : PEField
deriving DecidableEq

/-- The then-step `The relative placement of that {entity} must be provided
by an {other_entity} entity`: when applicable, reports each instance whose
ObjectPlacement is None or not an {other_entity}; when not applicable the
whole body, including its handle_errors call, is skipped. -/
def placement_step (applicable : Option Bool) (instances : List PInst)
    (other_entity : String) : Except PyErr (List instance_placement_error) :=
  if applicable.getD true then
    Except.ok (instances.filterMap (fun obj =>
      match obj.objectPlacement with
      | none => some (instance_placement_error.mk obj other_entity (PEField.strF "") ""
          (PEField.strF "") (PEField.strF ""))
      | some p =>
          if p.classes.contains other_entity then none
          else some (instance_placement_error.mk obj other_entity (PEField.strF "") ""
            (PEField.strF "") (PEField.strF ""))))
  else Except.ok []

/-- Python `==` between the container's ObjectPlacement (an instance or None)
and the entity placement's PlacementRelTo value (an instance id or None):
instance equality in ifcopenshell is identity within the file, i.e. id
equality; None equals only None. -/
def py_placement_eq (a : Option PObj) (b : Option Nat) : Bool :=
  match a, b with
  | none, none => true
  | some p, some i => p.id == i
  | _, _ => false

/-- The loop of the container-placement then-step.  entity_obj_placement_rel
is a function-scoped Python local: when the try block raises AttributeError
before assigning it, the rendering falls back to the value left over from a
previous iteration, or to the string fallback on the first failure
(`except UnboundLocalError`); prevRel threads that scope behaviour. -/
def container_placement_loop (relationship : String) (prevRel : Option PEField) :
    List PInst → Except PyErr (List instance_placement_error)
  | [] => Except.ok []
  | entity :: rest => do
      let container ←
        match entity.decomposes.head? with
        | some rel => Except.ok rel
        | none => Except.error PyErr.indexError
      let container_obj_placement := container.objectPlacement
      let relResult : Option (Option Nat) :=
        match entity.objectPlacement with
        | none => none
        | some p => if p.hasPlacementRelTo then some p.placementRelTo else none
      let is_correct :=
        match relResult with
        | none => false
        | some relTo => py_placement_eq container_obj_placement relTo
      let entity_obj_placement_rel : PEField :=
        match relResult with
        | none => prevRel.getD (PEField.strF "Not found")
        | some r => PEField.relF r
      let rest2 ← container_placement_loop relationship
        (match relResult with
         | none => prevRel
         | some r => some (PEField.relF r)) rest
      if is_correct then Except.ok rest2
      else Except.ok (instance_placement_error.mk entity "" (PEField.containerF container)
        relationship (PEField.placementF container_obj_placement)
        entity_obj_placement_rel :: rest2)

/-- The then-step `The {entity} attribute must point to the {other_entity} of
the container element established with {relationship} relationship`: fully
gated on context.applicable; when applicable it asserts that the relationship
phrase is IfcRelAggregates (the only key of stmt_to_op) and runs the loop. -/
def container_placement_step (applicable : Option Bool) (instances : List PInst)
    (relationship : String) : Except PyErr (List instance_placement_error) :=
  if applicable.getD true then
    if relationship = "IfcRelAggregates" then
      container_placement_loop relationship none instances
    else Except.error PyErr.assertionError
  else Except.ok []

deriving instance DecidableEq for Except

def vA : Coord := [0, 0, 0]
def vB : Coord := [1, 0, 0]
def vC : Coord := [0, 1, 0]
def vD : Coord := [0, 0, 1]

/-- A tetrahedron over vA, vB, vC, vD with the face (vB, vC, vD) removed: an
open mesh whose three boundary edges vB-vC, vB-vD, vC-vD are each used by
exactly one remaining face. -/
def openTetrahedron : MeshInstance :=
  MeshInstance.connectedFaceSet
    [PolyLoopV.mk [vA, vB, vC], PolyLoopV.mk [vA, vB, vD], PolyLoopV.mk [vA, vC, vD]] []

/-- The findings that the edge-usage check emits for the open tetrahedron
with expected count 2: one finding per boundary edge, each with actual
count 1. -/
def openTetraFindings : List edge_use_error :=
  [edge_use_error.mk openTetrahedron (mk_fset vB vC) 1,
   edge_use_error.mk openTetrahedron (mk_fset vB vD) 1,
   edge_use_error.mk openTetrahedron (mk_fset vC vD) 1]

theorem except_bind_ok {α β : Type} {x : Except PyErr α} {f : α → Except PyErr β} {b : β}
    (h : (x >>= f) = Except.ok b) : ∃ a, x = Except.ok a ∧ f a = Except.ok b := by
  cases x with
  | error e => exact absurd h (by simp [Bind.bind, Except.bind])
  | ok a => exact ⟨a, rfl, by simpa [Bind.bind, Except.bind] using h⟩

theorem inst_findings_spec {oriented : Bool} {num : Nat} {i : MeshInstance}
    {fs : List edge_use_error} (h : inst_findings oriented num i = Except.ok fs) :
    ∃ E, get_edges_list oriented i = Except.ok E ∧
      (fs.map edge_use_error.edge).Nodup ∧
      ∀ f, f ∈ fs ↔ (f.inst = i ∧ f.edge ∈ E ∧ f.count = E.count f.edge ∧ f.count ≠ num) := by
  rw [inst_findings] at h
  obtain ⟨E, hE, h2⟩ := except_bind_ok h
  injection h2 with h2
  subst h2
  refine ⟨E, hE, ?_, ?_⟩
  · have hmap : (((E.dedup.filter (fun e => E.count e != num)).map
        (fun e => edge_use_error.mk i e (E.count e))).map edge_use_error.edge)
        = E.dedup.filter (fun e => E.count e != num) := by
      have hcomp : (edge_use_error.edge ∘ fun e => edge_use_error.mk i e (E.count e)) = id := by
        funext e; rfl
      simp [List.map_map, hcomp]
    rw [hmap]
    exact (List.nodup_dedup E).filter _
  · intro f
    simp only [List.mem_map, List.mem_filter, List.mem_dedup]
    constructor
    · rintro ⟨e, ⟨heE, hcnt⟩, rfl⟩
      exact ⟨rfl, heE, rfl, by simpa using hcnt⟩
    · rintro ⟨hinst, hedge, hcount, hne⟩
      obtain ⟨fi, fe, fc⟩ := f
      simp only at hinst hedge hcount hne
      subst hinst; subst hcount
      exact ⟨fe, ⟨hedge, by simpa using hne⟩, rfl⟩

theorem check_instances_spec {oriented : Bool} {num : Nat} :
    ∀ {insts : List MeshInstance} {fs : List edge_use_error},
      check_instances oriented num insts = Except.ok fs →
      ∃ chunks : List (List edge_use_error),
        fs = chunks.flatten ∧
        List.Forall₂ (fun i chunk =>
          ∃ E, get_edges_list oriented i = Except.ok E ∧
            (chunk.map edge_use_error.edge).Nodup ∧
            ∀ f, f ∈ chunk ↔
              (f.inst = i ∧ f.edge ∈ E ∧ f.count = E.count f.edge ∧ f.count ≠ num))
          insts chunks := by
  intro insts
  induction insts with
  | nil =>
      intro fs h
      simp only [check_instances] at h
      injection h with h
      subst h
      exact ⟨[], rfl, List.Forall₂.nil⟩
  | cons i rest ih =>
      intro fs h
      simp only [check_instances] at h
      obtain ⟨fs1, h1, h2⟩ := except_bind_ok h
      obtain ⟨fs2, h2a, h2b⟩ := except_bind_ok h2
      injection h2b with h2b
      subst h2b
      obtain ⟨chunks, hflat, hall⟩ := ih h2a
      obtain ⟨E, hE, hnodup, hmem⟩ := inst_findings_spec h1
      exact ⟨fs1 :: chunks, by simp [hflat], List.Forall₂.cons ⟨E, hE, hnodup, hmem⟩ hall⟩

/-- Claim C1: for every instance set and expected count, the edge-usage
then-step decodes each instance's edges, counts occurrences, and emits
exactly one finding per edge whose count differs from the expected count,
each finding carrying the owning instance, the edge, and its actual count
(the findings list is the concatenation of one duplicate-free chunk per
instance, chunk membership characterized by the deviation); and for the open
tetrahedron checked in unordered mode with expected count 2, it emits
exactly 3 findings, one per boundary edge, each with actual count 1. -/
theorem C1_edge_usage_check :
    (∀ (something : String) (num : Nat) (insts : List MeshInstance)
        (fs : List edge_use_error),
      (something = "edge" ∨ something = "oriented edge") →
      edge_usage_step something num insts = Except.ok fs →
      ∃ chunks : List (List edge_use_error),
        fs = chunks.flatten ∧
        List.Forall₂ (fun i chunk =>
          ∃ E, get_edges_list (something == "oriented edge") i = Except.ok E ∧
            (chunk.map edge_use_error.edge).Nodup ∧
            ∀ f, f ∈ chunk ↔
              (f.inst = i ∧ f.edge ∈ E ∧ f.count = E.count f.edge ∧ f.count ≠ num))
          insts chunks)
    ∧ edge_usage_step "edge" 2 [openTetrahedron] = Except.ok openTetraFindings
    ∧ openTetraFindings.length = 3
    ∧ openTetraFindings.map edge_use_error.edge = [mk_fset vB vC, mk_fset vB vD, mk_fset vC vD]
    ∧ (∀ f, f ∈ openTetraFindings → f.count = 1 ∧ f.inst = openTetrahedron) := by
  refine ⟨?_, by decide, by decide, by decide, by decide⟩
  intro something num insts fs hsome h
  rw [edge_usage_step, if_pos hsome] at h
  exact check_instances_spec h

/-- Witness for C1 at the open tetrahedron. -/
theorem C1_edge_usage_check_witness :
    ("edge" = "edge" ∨ ("edge" : String) = "oriented edge")
    ∧ (∃ chunks : List (List edge_use_error),
        openTetraFindings = chunks.flatten ∧
        List.Forall₂ (fun i chunk =>
          ∃ E, get_edges_list ("edge" == "oriented edge") i = Except.ok E ∧
            (chunk.map edge_use_error.edge).Nodup ∧
            ∀ f, f ∈ chunk ↔
              (f.inst = i ∧ f.edge ∈ E ∧ f.count = E.count f.edge ∧ f.count ≠ 2))
          [openTetrahedron] chunks) :=
  ⟨Or.inl rfl,
   C1_edge_usage_check.1 "edge" 2 [openTetrahedron] openTetraFindings (Or.inl rfl) (by decide)⟩

/-- Claim C2: in oriented mode, an explicit oriented edge with orientation
flag false decodes to the reversed ordered pair (end, start), flag true to
(start, end); the two are distinct edges when the endpoints differ; and every
oriented edge of a connected face set contributes exactly one ordered edge,
appended after the loop edges. -/
theorem C2_oriented_edge_decoding :
    (∀ a b : Coord,
      get_edges_list true (MeshInstance.connectedFaceSet [] [OrientedEdgeV.mk a b false])
        = Except.ok [PyEdge.pair b a] ∧
      get_edges_list true (MeshInstance.connectedFaceSet [] [OrientedEdgeV.mk a b true])
        = Except.ok [PyEdge.pair a b])
    ∧ (∀ a b : Coord, a ≠ b → PyEdge.pair b a ≠ PyEdge.pair a b)
    ∧ (∀ (loops : List PolyLoopV) (eds : List OrientedEdgeV) (E : List PyEdge),
      get_edges_list true (MeshInstance.connectedFaceSet loops eds) = Except.ok E →
      ∃ E0, get_edges_list true (MeshInstance.connectedFaceSet loops []) = Except.ok E0 ∧
        E = E0 ++ eds.map (oriented_edge_decode true)) := by
  refine ⟨fun a b => ⟨rfl, rfl⟩, ?_, ?_⟩
  · intro a b hab h
    injection h with h1 h2
    exact hab h1.symm
  · intro loops eds E h
    simp only [get_edges_list] at h ⊢
    obtain ⟨les, hles, h2⟩ := except_bind_ok h
    injection h2 with h2
    subst h2
    refine ⟨les, ?_, rfl⟩
    rw [hles]
    simp [Bind.bind, Except.bind]

/-- Witness for C2 at concrete distinct endpoints. -/
theorem C2_oriented_edge_decoding_witness :
    (([0] : Coord) ≠ [1] ∧ PyEdge.pair [1] [0] ≠ PyEdge.pair [0] [1])
    ∧ (∃ E0, get_edges_list true (MeshInstance.connectedFaceSet [] []) = Except.ok E0 ∧
        [PyEdge.pair [1] [0]] = E0 ++ [OrientedEdgeV.mk [0] [1] false].map (oriented_edge_decode true)) :=
  ⟨⟨by decide, C2_oriented_edge_decoding.2.1 [0] [1] (by decide)⟩,
   C2_oriented_edge_decoding.2.2 [] [OrientedEdgeV.mk [0] [1] false] [PyEdge.pair [1] [0]] rfl⟩

theorem coordLe_total : ∀ a b : Coord, coordLe a b = true ∨ coordLe b a = true := by
  intro a
  induction a with
  | nil => intro b; left; rfl
  | cons x xs ih =>
      intro b
      cases b with
      | nil => right; rfl
      | cons y ys =>
          by_cases hxy : x < y
          · left; simp [coordLe, hxy]
          · by_cases hyx : y < x
            · right; simp [coordLe, hyx]
            · rcases ih ys with h | h
              · left; simp [coordLe, hxy, hyx, h]
              · right; simp [coordLe, hxy, hyx, h]

theorem coordLe_antisymm : ∀ a b : Coord, coordLe a b = true → coordLe b a = true → a = b := by
  intro a
  induction a with
  | nil =>
      intro b _ h2
      cases b with
      | nil => rfl
      | cons y ys => simp [coordLe] at h2
  | cons x xs ih =>
      intro b h1 h2
      cases b with
      | nil => simp [coordLe] at h1
      | cons y ys =>
          by_cases hxy : x < y
          · have hyx : ¬ y < x := lt_asymm hxy
            simp [coordLe, hxy, hyx] at h2
          · by_cases hyx : y < x
            · simp [coordLe, hxy, hyx] at h1
            · have hxe : x = y := le_antisymm (le_of_not_lt hyx) (le_of_not_lt hxy)
              simp [coordLe, hxy, hyx] at h1 h2
              rw [hxe, ih ys h1 h2]

theorem mk_fset_comm (a b : Coord) : mk_fset a b = mk_fset b a := by
  unfold mk_fset
  rcases coordLe_total a b with h | h
  · rw [if_pos h]
    by_cases h2 : coordLe b a = true
    · rw [if_pos h2, coordLe_antisymm a b h h2]
    · rw [if_neg h2]
  · by_cases h2 : coordLe a b = true
    · rw [if_pos h2, if_pos h, coordLe_antisymm a b h2 h]
    · rw [if_neg h2, if_pos h]

/-- Claim C3: in unordered mode an edge is stored canonically, so (a, b) and
(b, a) produce the same multiset entry, and decoding a triangle loop is
invariant under rotation: the loops [v0, v1, v2] and [v1, v2, v0] decode to
equal edge multisets. -/
theorem C3_unordered_canonicalization :
    (∀ a b : Coord, edge_of_pair false a b = edge_of_pair false b a)
    ∧ (∀ v0 v1 v2 : Coord, ∃ E1 E2 : List PyEdge,
        get_edges_list false (MeshInstance.connectedFaceSet [PolyLoopV.mk [v0, v1, v2]] [])
          = Except.ok E1 ∧
        get_edges_list false (MeshInstance.connectedFaceSet [PolyLoopV.mk [v1, v2, v0]] [])
          = Except.ok E2 ∧
        (E1 : Multiset PyEdge) = (E2 : Multiset PyEdge)) := by
  constructor
  · intro a b
    simp [edge_of_pair, mk_fset_comm a b]
  · intro v0 v1 v2
    refine ⟨[edge_of_pair false v0 v1, edge_of_pair false v1 v2, edge_of_pair false v2 v0],
            [edge_of_pair false v1 v2, edge_of_pair false v2 v0, edge_of_pair false v0 v1],
            rfl, rfl, ?_⟩
    exact Multiset.coe_eq_coe.mpr
      (@List.perm_append_comm _ [edge_of_pair false v0 v1]
        [edge_of_pair false v1 v2, edge_of_pair false v2 v0])

theorem resolve_loop_spec {coords : List Coord} :
    ∀ {l : List Int} {fc : List Coord}, resolve_loop coords l = Except.ok fc →
      List.Forall₂ (fun i c => resolve_index coords i = Except.ok c) l fc := by
  intro l
  induction l with
  | nil =>
      intro fc h
      simp only [resolve_loop] at h
      injection h with h
      subst h
      exact List.Forall₂.nil
  | cons i rest ih =>
      intro fc h
      simp only [resolve_loop] at h
      obtain ⟨c, hc, h2⟩ := except_bind_ok h
      obtain ⟨rest2, hrest, h3⟩ := except_bind_ok h2
      injection h3 with h3
      subst h3
      exact List.Forall₂.cons hc (ih hrest)

theorem emit_loop_spec {oriented : Bool} {coords : List Coord} {l : List Int}
    {es : List PyEdge} (h : emit_loop oriented coords l = Except.ok es) :
    ∃ fc : List Coord,
      List.Forall₂ (fun i c => resolve_index coords i = Except.ok c) l fc ∧
      es.length = l.length ∧
      es = List.zipWith (edge_of_pair oriented) fc (fc.drop 1 ++ fc.take 1) := by
  rw [emit_loop] at h
  obtain ⟨fc, hfc, h2⟩ := except_bind_ok h
  have hall := resolve_loop_spec hfc
  cases fc with
  | nil => exact absurd h2 (by simp)
  | cons c rest =>
      injection h2 with h2
      subst h2
      refine ⟨c :: rest, hall, ?_, rfl⟩
      have hlen := List.Forall₂.length_eq hall
      simp only [List.length_zipWith, List.length_cons, List.length_append, hlen]
      omega

theorem emit_loops_chunks {oriented : Bool} {coords : List Coord} :
    ∀ {ls : List (List Int)} {flat : List PyEdge},
      emit_loops oriented coords ls = Except.ok flat →
      ∃ ies : List (List PyEdge),
        List.Forall₂ (fun l ie => emit_loop oriented coords l = Except.ok ie) ls ies ∧
        flat = ies.flatten := by
  intro ls
  induction ls with
  | nil =>
      intro flat h
      simp only [emit_loops] at h
      injection h with h
      subst h
      exact ⟨[], List.Forall₂.nil, rfl⟩
  | cons l rest ih =>
      intro flat h
      simp only [emit_loops] at h
      obtain ⟨es, hes, h2⟩ := except_bind_ok h
      obtain ⟨rest2, hrest, h3⟩ := except_bind_ok h2
      injection h3 with h3
      subst h3
      obtain ⟨ies, hall, hflat⟩ := ih hrest
      exact ⟨es :: ies, List.Forall₂.cons hes hall, by simp [hflat]⟩

/-- Claim C4: decoding an indexed polygon set with voids emits, for the outer
loop and independently for each inner loop, one edge per consecutive pair of
the loop's 1-based indices resolved to coordinates, with wrap-around (the
edge list of a loop is the zip of its resolved points with their one-step
rotation), and every emitted edge lies within a single loop's own edge list
(no edge connects an inner loop to the outer loop). -/
theorem C4_polygonal_voids_decoding :
    (∀ (oriented : Bool) (coords : List Coord) (outer : List Int)
        (inners : List (List Int)) (E : List PyEdge),
      get_edges_list oriented
          (MeshInstance.polygonalFaceSet coords [IndexedFace.mk outer (some inners)])
        = Except.ok E →
      ∃ (oe : List PyEdge) (ies : List (List PyEdge)),
        emit_loop oriented coords outer = Except.ok oe ∧
        List.Forall₂ (fun l ie => emit_loop oriented coords l = Except.ok ie) inners ies ∧
        E = oe ++ ies.flatten ∧
        (∀ e, e ∈ E → e ∈ oe ∨ ∃ ie, ie ∈ ies ∧ e ∈ ie))
    ∧ (∀ (oriented : Bool) (coords : List Coord) (l : List Int) (es : List PyEdge),
      emit_loop oriented coords l = Except.ok es →
      ∃ fc : List Coord,
        List.Forall₂ (fun i c => resolve_index coords i = Except.ok c) l fc ∧
        es.length = l.length ∧
        es = List.zipWith (edge_of_pair oriented) fc (fc.drop 1 ++ fc.take 1)) := by
  constructor
  · intro oriented coords outer inners E h
    simp only [get_edges_list, faces_edges] at h
    obtain ⟨es, hes, h2⟩ := except_bind_ok h
    obtain ⟨rest2, hrest2, h3⟩ := except_bind_ok h2
    injection hrest2 with hrest2
    subst hrest2
    injection h3 with h3
    subst h3
    simp only [face_edges] at hes
    obtain ⟨oe, hoe, h4⟩ := except_bind_ok hes
    obtain ⟨innerFlat, hinner, h5⟩ := except_bind_ok h4
    injection h5 with h5
    subst h5
    obtain ⟨ies, hall, hflat⟩ := emit_loops_chunks hinner
    subst hflat
    refine ⟨oe, ies, hoe, hall, by simp, ?_⟩
    intro e he
    simp only [List.append_nil, List.mem_append] at he
    rcases he with he | he
    · exact Or.inl he
    · exact Or.inr (List.mem_flatten.mp he)
  · intro oriented coords l es h
    exact emit_loop_spec h

/-- Witness for C4 at a square face with a triangular void. -/
theorem C4_polygonal_voids_decoding_witness :
    (get_edges_list false (MeshInstance.polygonalFaceSet
        [[0, 0], [4, 0], [4, 4], [0, 4], [1, 1], [2, 1], [1, 2]]
        [IndexedFace.mk [1, 2, 3, 4] (some [[5, 6, 7]])])
      = Except.ok [mk_fset [0, 0] [4, 0], mk_fset [4, 0] [4, 4],
          mk_fset [4, 4] [0, 4], mk_fset [0, 4] [0, 0],
          mk_fset [1, 1] [2, 1], mk_fset [2, 1] [1, 2], mk_fset [1, 2] [1, 1]])
    ∧ (∃ (oe : List PyEdge) (ies : List (List PyEdge)),
        emit_loop false [[0, 0], [4, 0], [4, 4], [0, 4], [1, 1], [2, 1], [1, 2]] [1, 2, 3, 4]
          = Except.ok oe ∧
        List.Forall₂ (fun l ie =>
          emit_loop false [[0, 0], [4, 0], [4, 4], [0, 4], [1, 1], [2, 1], [1, 2]] l
            = Except.ok ie) [[5, 6, 7]] ies ∧
        [mk_fset [0, 0] [4, 0], mk_fset [4, 0] [4, 4],
          mk_fset [4, 4] [0, 4], mk_fset [0, 4] [0, 0],
          mk_fset [1, 1] [2, 1], mk_fset [2, 1] [1, 2], mk_fset [1, 2] [1, 1]]
          = oe ++ ies.flatten ∧
        (∀ e, e ∈ [mk_fset [0, 0] [4, 0], mk_fset [4, 0] [4, 4],
            mk_fset [4, 4] [0, 4], mk_fset [0, 4] [0, 0],
            mk_fset [1, 1] [2, 1], mk_fset [2, 1] [1, 2], mk_fset [1, 2] [1, 1]] →
          e ∈ oe ∨ ∃ ie, ie ∈ ies ∧ e ∈ ie)) :=
  ⟨by decide,
   C4_polygonal_voids_decoding.1 false
     [[0, 0], [4, 0], [4, 4], [0, 4], [1, 1], [2, 1], [1, 2]]
     [1, 2, 3, 4] [[5, 6, 7]] _ (by decide)⟩

/-- Claim C5: an instance whose mesh-encoding variant is not one of the three
supported variants makes decoding fail with the NotImplementedError naming
get_edges and the type, and the edge-usage check over any instance list
containing such an instance never returns a findings list (no silent skip,
no empty or partial result). -/
theorem C5_unsupported_encoding_error :
    (∀ (oriented : Bool) (name : String),
      get_edges_list oriented (MeshInstance.otherEncoding name)
        = Except.error (PyErr.notImplemented ("get_edges(" ++ name ++ ")")))
    ∧ (∀ (oriented : Bool) (num : Nat) (name : String) (insts : List MeshInstance),
      MeshInstance.otherEncoding name ∈ insts →
      ∀ fs, check_instances oriented num insts ≠ Except.ok fs) := by
  refine ⟨fun _ _ => rfl, ?_⟩
  intro oriented num name insts
  induction insts with
  | nil => intro hmem; cases hmem
  | cons i rest ih =>
      intro hmem fs h
      simp only [check_instances] at h
      obtain ⟨fs1, h1, h2⟩ := except_bind_ok h
      obtain ⟨fs2, h2a, _⟩ := except_bind_ok h2
      rcases List.mem_cons.mp hmem with rfl | hmem2
      · simp [inst_findings, get_edges_list, Bind.bind, Except.bind] at h1
      · exact ih hmem2 fs2 h2a

/-- Witness for C5 at a faceted-brep instance. -/
theorem C5_unsupported_encoding_error_witness :
    (MeshInstance.otherEncoding "IfcFacetedBrep"
      ∈ [MeshInstance.otherEncoding "IfcFacetedBrep"])
    ∧ check_instances false 2 [MeshInstance.otherEncoding "IfcFacetedBrep"]
        ≠ Except.ok [] :=
  ⟨by decide,
   C5_unsupported_encoding_error.2 false 2 "IfcFacetedBrep" _ (by decide) []⟩

/-- The accessor tables with the containment relationship correctly
registered on both sides. -/
def relTables : AccessorTables :=
  AccessorTables.mk
    (fun t => if t = "IfcRelContainedInSpatialStructure"
      then some "RelatingStructure" else none)
    (fun t => if t = "IfcRelContainedInSpatialStructure"
      then some "RelatedElements" else none)

def wallObj : RObj := RObj.mk 10 ["IfcWall", "IfcBuildingElement", "IfcProduct"]

def storeyObj : RObj := RObj.mk 11 ["IfcBuildingStorey", "IfcSpatialStructureElement"]

/-- A containment relationship whose relating side is a storey and whose
related side is a collection holding one wall: the traversal of the claim
should return the wall. -/
def containRel : RelInst :=
  RelInst.mk "IfcRelContainedInSpatialStructure"
    [("RelatingStructure", RAttrVal.single storeyObj),
     ("RelatedElements", RAttrVal.collection [wallObj])]

def containModel : RelModel :=
  RelModel.mk (fun t => if t = "IfcRelContainedInSpatialStructure"
    then Except.ok [containRel] else Except.ok [])

/-- Claim C6 (code bug): the relationship step is supposed to read the
relating side through the accessor name looked up in the external table and
collect the matching related values, but the table lookups are bound to the
locals attr_to_entity and attr_to_other while the body reads the unassigned
names relationship_relating_attr and relationship_related_attr: on a model
with one matching containment relationship (accessor table filled in
correctly, as the last two conjuncts show) the step raises NameError instead
of returning the contained wall. -/
theorem C6_traversal_name_error :
    relationship_step relTables containModel "IfcRelContainedInSpatialStructure"
        "IfcWall" "IfcBuildingStorey" 0 1 0
      = Except.error (PyErr.nameError "relationship_relating_attr")
    ∧ relTables.relating "IfcRelContainedInSpatialStructure" = some "RelatingStructure"
    ∧ relTables.related "IfcRelContainedInSpatialStructure" = some "RelatedElements" :=
  ⟨rfl, rfl, rfl⟩

def projObj : RObj := RObj.mk 1 ["IfcProject"]

def siteObj : RObj := RObj.mk 2 ["IfcSite"]

def bldgObj : RObj := RObj.mk 3 ["IfcBuilding"]

def aggTables : AccessorTables :=
  AccessorTables.mk
    (fun t => if t = "IfcRelAggregates" then some "RelatingObject" else none)
    (fun t => if t = "IfcRelAggregates" then some "RelatedObjects" else none)

def aggRelTop : RelInst :=
  RelInst.mk "IfcRelAggregates"
    [("RelatingObject", RAttrVal.single projObj),
     ("RelatedObjects", RAttrVal.collection [siteObj])]

def aggRelLower : RelInst :=
  RelInst.mk "IfcRelAggregates"
    [("RelatingObject", RAttrVal.single siteObj),
     ("RelatedObjects", RAttrVal.collection [bldgObj])]

/-- A model with a two-level structural aggregation:
project aggregates site, site aggregates building. -/
def twoLevelModel : RelModel :=
  RelModel.mk (fun t => if t = "IfcRelAggregates"
    then Except.ok [aggRelTop, aggRelLower] else Except.ok [])

/-- Counterexample to claim C7: on a model holding a two-level structural
relationship (project aggregates site aggregates building), the step invoked
with the `and following that` tail set returns exactly what the unchained
invocation returns — no second hop changes the result. -/
theorem C7_chain_flag_counterexample :
    relationship_step aggTables twoLevelModel "IfcRelAggregates"
        "IfcBuilding" "IfcProject" 0 1 1
      = relationship_step aggTables twoLevelModel "IfcRelAggregates"
        "IfcBuilding" "IfcProject" 0 1 0 := rfl

/-- Claim C7 as amended: the chain-once tail (the parsed `and following
that` phrase) is accepted by the relationship step but never read, so the
step's result is identical for every value of the tail; no second hop is
applied. -/
theorem C7_chain_flag_ignored :
    ∀ (tables : AccessorTables) (m : RelModel)
      (relationship entity other_entity : String) (dir1 dir2 t t2 : Nat),
      relationship_step tables m relationship entity other_entity dir1 dir2 t
        = relationship_step tables m relationship entity other_entity dir1 dir2 t2 :=
  fun _ _ _ _ _ _ _ _ _ => rfl

/-- Counterexample to claim C8: an instance on which the filtered attribute
is absent (reads as None) is retained, not filtered out, when the parsed
literal is None. -/
theorem C8_absent_attribute_counterexample :
    (AInst.mk 0 []).attrs.lookup "Name" = none
    ∧ attribute_filter_step [AInst.mk 0 []] "Name" Value.noneV = [AInst.mk 0 []]
    ∧ attribute_filter_step [AInst.mk 0 []] "Name" Value.noneV ≠ [] :=
  ⟨rfl, rfl, by decide⟩

/-- Claim C8 as amended: filtering by attribute retains exactly the instances
whose attribute value (None when the attribute is absent) equals the parsed
literal, never raising; an instance lacking the attribute is filtered out for
every literal other than None, but retained when the literal is None. -/
theorem C8_attribute_filter :
    ∀ (instances : List AInst) (attrName : String) (value : Value),
      (∀ i, i ∈ attribute_filter_step instances attrName value ↔
        (i ∈ instances ∧ getAttr i attrName = value))
      ∧ (value ≠ Value.noneV → ∀ i, i ∈ instances → i.attrs.lookup attrName = none →
          i ∉ attribute_filter_step instances attrName value) := by
  intro instances attrName value
  have hmemc : ∀ i, i ∈ attribute_filter_step instances attrName value ↔
      (i ∈ instances ∧ getAttr i attrName = value) := by
    intro i
    simp [attribute_filter_step, List.mem_filter]
  refine ⟨hmemc, ?_⟩
  intro hv i hi habs hmem
  have h2 := (hmemc i).mp hmem
  have h3 : getAttr i attrName = Value.noneV := by simp [getAttr, habs]
  exact hv (h2.2.symm.trans h3)

/-- Witness for C8 at a two-instance list, one holding the attribute. -/
theorem C8_attribute_filter_witness :
    (Value.strV "x" ≠ Value.noneV)
    ∧ (AInst.mk 0 [] ∈ [AInst.mk 1 [("Name", Value.strV "x")], AInst.mk 0 []])
    ∧ ((AInst.mk 0 []).attrs.lookup "Name" = none)
    ∧ AInst.mk 0 [] ∉ attribute_filter_step
        [AInst.mk 1 [("Name", Value.strV "x")], AInst.mk 0 []] "Name" (Value.strV "x") :=
  ⟨by decide, by decide, rfl,
   (C8_attribute_filter [AInst.mk 1 [("Name", Value.strV "x")], AInst.mk 0 []]
      "Name" (Value.strV "x")).2 (by decide) (AInst.mk 0 []) (by decide) rfl⟩

/-- Claim C9: once a file-applicability check has set the flag to false, it
stays false under any further sequence of checks, and with the flag false the
instance-count, structural-assignment, and both placement then-steps return
an empty findings list (so handle_errors asserts nothing) regardless of the
model, the instances, and the step arguments. -/
theorem C9_applicability_gating :
    (∀ (cs : List FileCheck) (r : Option Bool),
      run_checks (some false) cs = Except.ok r → r = some false)
    ∧ (∀ (m : GModel) (constraint : String) (num : Int) (entity : String),
      (constraint = "at least" ∨ constraint = "at most") →
      instance_count_step (some false) m constraint num entity = Except.ok [])
    ∧ (∀ (m : SModel) (related relating other_entity condition : String),
      (condition = "is" ∨ condition = "is not") →
      structural_step (some false) m related relating other_entity condition = Except.ok [])
    ∧ (∀ (instances : List PInst) (other_entity : String),
      placement_step (some false) instances other_entity = Except.ok [])
    ∧ (∀ (instances : List PInst) (relationship : String),
      container_placement_step (some false) instances relationship = Except.ok []) := by
  refine ⟨?_, ?_, ?_, fun _ _ => rfl, fun _ _ => rfl⟩
  · intro cs
    induction cs with
    | nil =>
        intro r h
        simp only [run_checks] at h
        injection h with h
        exact h.symm
    | cons c cs2 ih =>
        intro r h
        simp only [run_checks] at h
        obtain ⟨r1, h1, h2⟩ := except_bind_ok h
        have hr1 : r1 = false := by
          rw [file_with_step] at h1
          obtain ⟨a, _, h3⟩ := except_bind_ok h1
          injection h3 with h3
          simp [← h3]
        subst hr1
        exact ih r h2
  · intro m constraint num entity hc
    rcases hc with rfl | rfl <;> rfl
  · intro m related relating other_entity condition hc
    rcases hc with rfl | rfl <;> rfl

/-- Witness for C9 at a concrete check sequence and concrete models. -/
theorem C9_applicability_gating_witness :
    ((some false : Option Bool) = some false)
    ∧ instance_count_step (some false) (GModel.mk fun _ => Except.ok [])
        "at least" 1 "IfcSite" = Except.ok []
    ∧ structural_step (some false) (SModel.mk fun _ => Except.ok [])
        "IfcSite" "IfcProject" "IfcProject" "is" = Except.ok [] :=
  ⟨C9_applicability_gating.1 [FileCheck.mk [] "IFC4" "Schema Identifier" "ifc4"]
      (some false) rfl,
   C9_applicability_gating.2.1 (GModel.mk fun _ => Except.ok [])
      "at least" 1 "IfcSite" (Or.inl rfl),
   C9_applicability_gating.2.2.1 (SModel.mk fun _ => Except.ok [])
      "IfcSite" "IfcProject" "IfcProject" "is" (Or.inl rfl)⟩

/-- Claim C10: the initial instance-selection step never propagates an
error: when by_type fails the instance set becomes the empty list, and when
it succeeds the instance set is exactly the by_type result. -/
theorem C10_entity_selection_fallback :
    (∀ (m : GModel) (entity : String) (err : PyErr),
      m.byType entity = Except.error err → an_entity_step m entity = [])
    ∧ (∀ (m : GModel) (entity : String) (l : List AInst),
      m.byType entity = Except.ok l → an_entity_step m entity = l) := by
  constructor
  · intro m e err h
    simp [an_entity_step, h]
  · intro m e l h
    simp [an_entity_step, h]

/-- Witness for C10 at a model whose lookup always raises. -/
theorem C10_entity_selection_fallback_witness :
    (GModel.mk fun _ => Except.error (PyErr.attributeError "unknown type")).byType
        "NotAnEntity" = Except.error (PyErr.attributeError "unknown type")
    ∧ an_entity_step (GModel.mk fun _ => Except.error (PyErr.attributeError "unknown type"))
        "NotAnEntity" = [] :=
  ⟨rfl,
   C10_entity_selection_fallback.1 (GModel.mk fun _ => Except.error (PyErr.attributeError "unknown type"))
     "NotAnEntity" (PyErr.attributeError "unknown type") rfl⟩
